import Mathlib

/- Verification development for the Adaptive Random Forest streaming
classifier (skmultiflow/classification/meta/adaptive_random_forests.py).
The file gives a shallow embedding of the ensemble manager
(AdaptiveRandomForest), the per-tree base learner state machine
(ARFBaseLearner) and the performance evaluator
(ARFBaseClassifierEvaluator), and proves theorems about their contracts.
External collaborators (the Hoeffding tree classifier, the change
detectors, the numpy random source) are modelled as abstract types with
the capability interface the source consumes. Python floats are modelled
as rationals; labels as integers; fallible paths (attribute access through
None) return Except. -/

/-- The per-learner performance evaluator (class
ARFBaseClassifierEvaluator): a running aggregate of weighted-correct
predictions and a `length` counter that `update` never touches. -/
structure ARFBaseClassifierEvaluator where
  aggregation : Rat
  length : Nat
deriving DecidableEq

/-- `ARFBaseClassifierEvaluator.__init__`: aggregation = 0, length = 0. -/
def ARFBaseClassifierEvaluator.init : ARFBaseClassifierEvaluator := ⟨0, 0⟩

/-- `update(self, y_predicted, y, weight)`: if weight > 0, add `weight` to
the aggregate when the prediction equals the label, else add 0. -/
def ARFBaseClassifierEvaluator.update (e : ARFBaseClassifierEvaluator)
    (y_predicted y : Int) (weight : Rat) : ARFBaseClassifierEvaluator :=
  if weight > 0 then
    { e with aggregation := e.aggregation + (if y_predicted = y then weight else 0) }
  else e

/-- `get_performance(self)`: the running aggregate times the constant 100. -/
def ARFBaseClassifierEvaluator.get_performance (e : ARFBaseClassifierEvaluator) : Rat :=
  e.aggregation * 100

/-- `reset(self)`: aggregation = 0, length = 0. -/
def ARFBaseClassifierEvaluator.reset (e : ARFBaseClassifierEvaluator) :
    ARFBaseClassifierEvaluator :=
  { e with aggregation := 0, length := 0 }

variable {C D X : Type}

/-- Capability interface of the base classifier (ARFHoeffdingTree), the
external collaborator a learner owns: incremental training, prediction,
per-label vote counts (a mapping with insertion order, modelled as an
association list), `new_instance` and `reset`. `C` is the classifier
state, `X` the instance row type; labels are integers, weights rationals. -/
structure ClassifierOps (C X : Type) where
  partial_fit : C → X → Int → Rat → C
  predict : C → X → Int
  get_votes_for_instance : C → X → List (Int × Rat)
  new_instance : C → C
  reset : C → C

/-- Capability interface of a change detector (BaseDriftDetector):
consumes an error bit via `add_element`, exposes `detected_change`, can be
reset. `D` is the detector state. -/
structure DetectorOps (D : Type) where
  add_element : D → Nat → D
  detected_change : D → Bool
  reset : D → D

/-- The non-recursive attributes of ARFBaseLearner. The `evaluator_method`
attribute is always the class ARFBaseClassifierEvaluator and is left
implicit; `deepcopy` of an immutable detector prototype is the prototype
itself. -/
structure LearnerCore (C D : Type) where
  index_original : Nat
  classifier : C
  created_on : Nat
  is_background_learner : Bool
  drift_detection_method : Option D
  warning_detection_method : Option D
  last_drift_on : Nat
  last_warning_on : Nat
  nb_drifts_detected : Nat
  nb_warnings_detected : Nat
  drift_detection : Option D
  warning_detection : Option D
  use_drift_detector : Bool
  use_background_learner : Bool
  evaluator : ARFBaseClassifierEvaluator

/-- ARFBaseLearner: its attributes plus the nullable, same-typed
`background_learner` slot. -/
inductive ARFBaseLearner (C D : Type) : Type where
  | mk (core : LearnerCore C D) (background_learner : Option (ARFBaseLearner C D))

/-- The non-recursive attributes of a learner. -/
def ARFBaseLearner.core : ARFBaseLearner C D → LearnerCore C D
  | .mk c _ => c

/-- The nullable background learner slot. -/
def ARFBaseLearner.background_learner :
    ARFBaseLearner C D → Option (ARFBaseLearner C D)
  | .mk _ b => b

/-- `ARFBaseLearner.__init__`: fresh counters, a fresh evaluator, detector
copies of the configured prototypes (present iff the policy is), the
`_use_*` flags set iff the policy is configured, and an empty background
slot. -/
def ARFBaseLearner.init (index_original : Nat) (classifier : C)
    (instances_seen : Nat)
    (drift_detection_method warning_detection_method : Option D)
    (is_background_learner : Bool) : ARFBaseLearner C D :=
  .mk
    { index_original := index_original
      classifier := classifier
      created_on := instances_seen
      is_background_learner := is_background_learner
      drift_detection_method := drift_detection_method
      warning_detection_method := warning_detection_method
      last_drift_on := 0
      last_warning_on := 0
      nb_drifts_detected := 0
      nb_warnings_detected := 0
      drift_detection := drift_detection_method
      warning_detection := warning_detection_method
      use_drift_detector := drift_detection_method.isSome
      use_background_learner := warning_detection_method.isSome
      evaluator := ARFBaseClassifierEvaluator.init }
    none

/-- `ARFBaseLearner.reset(self, instances_seen)`: when the warning policy
is active and a background learner is present, transplant its classifier,
detectors and created_on into self and clear the slot; else hard-reset the
classifier and the drift detector in place (an error when the drift
detector is absent) and stamp created_on; either way install a fresh
evaluator. -/
def ARFBaseLearner.reset (cops : ClassifierOps C X) (dops : DetectorOps D)
    (l : ARFBaseLearner C D) (instances_seen : Nat) :
    Except Unit (ARFBaseLearner C D) :=
  match l with
  | .mk core bg =>
    match core.use_background_learner, bg with
    | true, some b =>
      .ok (.mk { core with
        classifier := b.core.classifier
        warning_detection := b.core.warning_detection
        drift_detection := b.core.drift_detection
        created_on := b.core.created_on
        evaluator := ARFBaseClassifierEvaluator.init } none)
    | _, _ =>
      match core.drift_detection with
      | none => .error ()
      | some d =>
        .ok (.mk { core with
          classifier := cops.reset core.classifier
          created_on := instances_seen
          drift_detection := some (dops.reset d)
          evaluator := ARFBaseClassifierEvaluator.init } bg)

/-- First phase of `ARFBaseLearner.partial_fit`: train the classifier with
the supplied weight and, when a background learner is present, its
classifier with weight 1. -/
def ARFBaseLearner.trainStep (cops : ClassifierOps C X)
    (l : ARFBaseLearner C D) (x : X) (y : Int) (weight : Rat) :
    LearnerCore C D × Option (ARFBaseLearner C D) :=
  ({ l.core with classifier := cops.partial_fit l.core.classifier x y weight },
   l.background_learner.map (fun b =>
     .mk { b.core with classifier := cops.partial_fit b.core.classifier x y 1 }
       b.background_learner))

/-- The error bit `int(not correctly_classifies)` that `partial_fit`
feeds the detectors: `correctly_classifies` is computed (by predicting the
just-trained instance) only when a drift detector is in use and the
learner is not a background learner, and stays False otherwise. -/
def ARFBaseLearner.errorBit (cops : ClassifierOps C X)
    (core : LearnerCore C D) (x : X) (y : Int) : Nat :=
  if core.use_drift_detector && !core.is_background_learner then
    if cops.predict core.classifier x = y then 0 else 1
  else 1

/-- Warning phase of `ARFBaseLearner.partial_fit`: when a drift detector
is in use, the learner is not a background learner and the warning policy
is active, feed the error bit to the warning detector (an error when that
detector is absent); on a detected change record the timestamp, bump the
warning count, replace the background slot with a fresh background learner
built on `classifier.new_instance()`, and reset the warning detector. -/
def ARFBaseLearner.warningStep (cops : ClassifierOps C X)
    (dops : DetectorOps D) (core : LearnerCore C D)
    (bg : Option (ARFBaseLearner C D)) (bit : Nat) (instances_seen : Nat) :
    Except Unit (LearnerCore C D × Option (ARFBaseLearner C D)) :=
  if core.use_drift_detector && !core.is_background_learner
      && core.use_background_learner then
    match core.warning_detection with
    | none => .error ()
    | some w =>
      if dops.detected_change (dops.add_element w bit) then
        .ok ({ core with
                 last_warning_on := instances_seen
                 nb_warnings_detected := core.nb_warnings_detected + 1
                 warning_detection := some (dops.reset (dops.add_element w bit)) },
             some (ARFBaseLearner.init core.index_original
               (cops.new_instance core.classifier) instances_seen
               core.drift_detection_method core.warning_detection_method true))
      else
        .ok ({ core with warning_detection := some (dops.add_element w bit) }, bg)
  else .ok (core, bg)

/-- Drift phase of `ARFBaseLearner.partial_fit` (source lines 350-357):
unconditionally feed the error bit to `self.drift_detection` — an error
when no drift detector exists — and on a detected change record the
timestamp, bump the drift count and run `reset`. -/
def ARFBaseLearner.driftStep (cops : ClassifierOps C X)
    (dops : DetectorOps D) (core : LearnerCore C D)
    (bg : Option (ARFBaseLearner C D)) (bit : Nat) (instances_seen : Nat) :
    Except Unit (ARFBaseLearner C D) :=
  match core.drift_detection with
  | none => .error ()
  | some d =>
    if dops.detected_change (dops.add_element d bit) then
      ARFBaseLearner.reset cops dops
        (.mk { core with
                 drift_detection := some (dops.add_element d bit)
                 last_drift_on := instances_seen
                 nb_drifts_detected := core.nb_drifts_detected + 1 } bg)
        instances_seen
    else .ok (.mk { core with drift_detection := some (dops.add_element d bit) } bg)

/-- `ARFBaseLearner.partial_fit(self, X, y, weight, instances_seen)`:
train, compute the error bit, run the warning check, then the drift
check. -/
def ARFBaseLearner.partial_fit (cops : ClassifierOps C X)
    (dops : DetectorOps D) (l : ARFBaseLearner C D) (x : X) (y : Int)
    (weight : Rat) (instances_seen : Nat) :
    Except Unit (ARFBaseLearner C D) :=
  match ARFBaseLearner.warningStep cops dops (l.trainStep cops x y weight).1
      (l.trainStep cops x y weight).2
      (ARFBaseLearner.errorBit cops (l.trainStep cops x y weight).1 x y)
      instances_seen with
  | .error e => .error e
  | .ok s2 =>
    ARFBaseLearner.driftStep cops dops s2.1 s2.2
      (ARFBaseLearner.errorBit cops (l.trainStep cops x y weight).1 x y)
      instances_seen

/-- `ARFBaseLearner.predict(self, X)`. -/
def ARFBaseLearner.predict (cops : ClassifierOps C X)
    (l : ARFBaseLearner C D) (x : X) : Int :=
  cops.predict l.core.classifier x

/-- `ARFBaseLearner.get_votes_for_instance(self, X)`. -/
def ARFBaseLearner.get_votes_for_instance (cops : ClassifierOps C X)
    (l : ARFBaseLearner C D) (x : X) : List (Int × Rat) :=
  cops.get_votes_for_instance l.core.classifier x

/-- The states an ARFBaseLearner can reach: constructed by `__init__`,
then closed under successful `partial_fit` and `reset` calls. -/
inductive ReachableLearner (cops : ClassifierOps C X) (dops : DetectorOps D) :
    ARFBaseLearner C D → Prop where
  | init : ∀ (i : Nat) (c : C) (t : Nat) (ddm wdm : Option D) (b : Bool),
      ReachableLearner cops dops (ARFBaseLearner.init i c t ddm wdm b)
  | fit : ∀ (l : ARFBaseLearner C D) (x : X) (y : Int) (w : Rat) (t : Nat)
      (l' : ARFBaseLearner C D), ReachableLearner cops dops l →
      l.partial_fit cops dops x y w t = .ok l' →
      ReachableLearner cops dops l'
  | reset_call : ∀ (l : ARFBaseLearner C D) (t : Nat)
      (l' : ARFBaseLearner C D), ReachableLearner cops dops l →
      l.reset cops dops t = .ok l' → ReachableLearner cops dops l'

/-- No nested shadowing: a learner flagged as a background learner owns no
background learner, and any learner in the background slot is flagged as
one and itself owns none. -/
def NoNestedBackground (l : ARFBaseLearner C D) : Prop :=
  (l.core.is_background_learner = true → l.background_learner = none)
  ∧ (∀ b, l.background_learner = some b →
      b.core.is_background_learner = true ∧ b.background_learner = none)

/-- Trivial classifier over unit instances: ignores training, predicts
label 0, votes nothing. Used to instantiate theorems at concrete inputs. -/
def unitCops : ClassifierOps Unit Unit where
  partial_fit := fun c _ _ _ => c
  predict := fun _ _ => 0
  get_votes_for_instance := fun _ _ => []
  new_instance := fun c => c
  reset := fun c => c

/-- Trivial detector that never signals a change. -/
def unitDops : DetectorOps Unit where
  add_element := fun d _ => d
  detected_change := fun _ => false
  reset := fun d => d

/-- Detector whose Boolean state says whether it reports a change;
`reset` clears it. -/
def fireDops : DetectorOps Bool where
  add_element := fun d _ => d
  detected_change := fun d => d
  reset := fun _ => false

/-- Concrete learner for the C2 witness: drift detector armed to fire,
no warning policy. -/
def witLearnerC2 : ARFBaseLearner Unit Bool :=
  ARFBaseLearner.init 0 () 0 (some true) none false

/-- The post-warning-phase core of the C2 witness run. -/
def witCoreC2 : LearnerCore Unit Bool :=
  (witLearnerC2.trainStep unitCops () 0 1).1

/-- The values the `max_features` attribute ranges over, in the order
`_set_max_features` tests them: the strings 'auto', 'sqrt', 'log2', a
Python int, a Python float (modelled as a rational), None, and any other
value (which falls into the final else branch). -/
inductive MaxFeaturesSetting where
  | strAuto
  | strSqrt
  | strLog2
  | intVal (i : Int)
  | floatVal (q : Rat)
  | noneVal
  | otherVal
deriving DecidableEq

/-- `⌊√n⌋`, computed as the number of k < n with (k+1)² ≤ n (a closed,
kernel-computable form of the integer square root). -/
def floorSqrt (n : Nat) : Nat :=
  ((List.range n).filter (fun k => (k + 1) * (k + 1) ≤ n)).length

/-- `round(math.sqrt(n))`: the integer nearest to the real square root of
`n` (the root of a non-square is irrational, so no half-way tie arises).
With `s = ⌊√n⌋`, the result is `s + 1` iff `√n ≥ s + 1/2`,
i.e. iff `n ≥ s² + s + 1`. -/
def roundSqrt (n : Nat) : Nat :=
  let s := floorSqrt n
  if s * s + s + 1 ≤ n then s + 1 else s

/-- `⌊log₂ n⌋`, computed as the number of l < n with 2^(l+1) ≤ n. -/
def floorLog2 (n : Nat) : Nat :=
  ((List.range n).filter (fun l => 2 ^ (l + 1) ≤ n)).length

/-- `round(math.log2(n))`: the integer nearest to log₂ n (for n not a
power of two the log is irrational, so no half-way tie arises). With
`l = ⌊log₂ n⌋`, the result is `l + 1` iff `log₂ n ≥ l + 1/2`,
i.e. iff `n² ≥ 2^(2l+1)`. -/
def roundLog2 (n : Nat) : Nat :=
  let l := floorLog2 n
  if 2 ^ (2 * l + 1) ≤ n * n then l + 1 else l

/-- Python `int(x)` on a float: truncation toward zero (the numerator
divided by the denominator, rounding toward zero). -/
def pyIntOfRat (q : Rat) : Int :=
  q.num.tdiv q.den

/-- `AdaptiveRandomForest._set_max_features(self, n)`: select the raw
value by the configured policy, then apply the three sanity checks in
source order (negative: add n; non-positive: use 1; above n: use n).
Returns the integer the method stores back into `self.max_features`. -/
def set_max_features (m : MaxFeaturesSetting) (n : Nat) : Int :=
  let v : Int :=
    match m with
    | .strAuto => roundSqrt n
    | .strSqrt => roundSqrt n
    | .strLog2 => roundLog2 n
    | .intVal i => i
    | .floatVal q => pyIntOfRat (q * n)
    | .noneVal => n
    | .otherVal => roundSqrt n
  let v := if v < 0 then v + n else v
  let v := if v ≤ 0 then 1 else v
  if v > n then n else v

/-- The values the constructor's detector-method parameters range over: a
detector instance, None, a string, or a number. Only the first is an
instance of BaseDriftDetector. -/
inductive DetectorArg (D : Type) where
  | detector (d : D)
  | noneArg
  | strArg (s : String)
  | numArg (n : Int)

/-- `isinstance(arg, BaseDriftDetector)`. -/
def DetectorArg.isBaseDriftDetector : DetectorArg D → Bool
  | .detector _ => true
  | _ => false

/-- The collaborators the manager consumes: the classifier and detector
capabilities, the tree factory `ARFHoeffdingTree(nominal_attributes,
max_features, random_state)` used at ensemble initialization, the feature
count of a row (`get_dimensions(X)[1]`), and the shared random source's
`rnd.poisson(lambda)` returning the multiplicity and the advanced
generator state (`R`). -/
structure ManagerOps (C D X R : Type) where
  cops : ClassifierOps C X
  dops : DetectorOps D
  create_tree : Int → C
  dim : X → Nat
  poisson : Nat → R → Nat × R

/-- The AdaptiveRandomForest ensemble manager state. `max_features` holds
the configured policy until lazy initialization overwrites it with the
computed integer; `ensemble` is None before lazy initialization; the
mutable numpy RandomState is the generator state `random_state : R`. -/
structure AdaptiveRandomForest (C D R : Type) where
  nb_ensemble : Nat
  max_features : MaxFeaturesSetting
  disable_weighted_vote : Bool
  lambda_value : Nat
  drift_detection_method : Option D
  warning_detection_method : Option D
  instances_seen : Nat
  train_weight_seen_by_model : Rat
  ensemble : Option (List (ARFBaseLearner C D))
  random_state : R

/-- `AdaptiveRandomForest.__init__`: an argument for either detector
method that is not a BaseDriftDetector instance is silently stored as
None; counters start at zero and the ensemble is absent. -/
def AdaptiveRandomForest.init (nb_ensemble : Nat)
    (max_features : MaxFeaturesSetting) (disable_weighted_vote : Bool)
    (lambda_value : Nat) (drift_arg warning_arg : DetectorArg D)
    (random_state : R) : AdaptiveRandomForest C D R where
  nb_ensemble := nb_ensemble
  max_features := max_features
  disable_weighted_vote := disable_weighted_vote
  lambda_value := lambda_value
  drift_detection_method :=
    match drift_arg with
    | .detector d => some d
    | _ => none
  warning_detection_method :=
    match warning_arg with
    | .detector d => some d
    | _ => none
  instances_seen := 0
  train_weight_seen_by_model := 0
  ensemble := none
  random_state := random_state

/-- `AdaptiveRandomForest.reset(self)`: the ensemble is cleared, the
max_features attribute is overwritten with the integer 0, the counters are
zeroed; the RandomState object is kept as it is (not re-seeded). -/
def AdaptiveRandomForest.reset (st : AdaptiveRandomForest C D R) :
    AdaptiveRandomForest C D R :=
  { st with
      ensemble := none
      max_features := .intVal 0
      instances_seen := 0
      train_weight_seen_by_model := 0 }

/-- `AdaptiveRandomForest.init_ensemble(self, X)`: store the computed
feature-subsample size back into max_features and build `nb_ensemble`
fresh learners, each owning a fresh tree built with that size. -/
def AdaptiveRandomForest.init_ensemble (ops : ManagerOps C D X R)
    (st : AdaptiveRandomForest C D R) (n_features : Nat) :
    AdaptiveRandomForest C D R :=
  { st with
      max_features := .intVal (set_max_features st.max_features n_features)
      ensemble := some ((List.range st.nb_ensemble).map (fun i =>
        ARFBaseLearner.init i
          (ops.create_tree (set_max_features st.max_features n_features))
          st.instances_seen st.drift_detection_method
          st.warning_detection_method false)) }

/-- The value a vote dict holds at a label, scanning in insertion order
(0 when the label is absent). -/
def dictLookup : List (Int × Rat) → Int → Rat
  | [], _ => 0
  | p :: rest, k => if p.1 = k then p.2 else dictLookup rest k

/-- Whether a vote dict holds a label. -/
def dictHasKey : List (Int × Rat) → Int → Bool
  | [], _ => false
  | p :: rest, k => p.1 = k || dictHasKey rest k

/-- Modelled from the spec: `normalize_values_in_dict` (imported by the
source from a utils module that is not among this repository's files)
normalizes the non-empty mapping so its values sum to 1, i.e. divides
every value by the sum of the values. -/
def normalize_values_in_dict (votes : List (Int × Rat)) : List (Int × Rat) :=
  votes.map (fun p => (p.1, p.2 / (votes.map Prod.snd).sum))

/-- `combined_votes[k] += vote[k]` with the KeyError fallback
`combined_votes[k] = vote[k]`: an existing key accumulates, a missing key
is appended (Python dict insertion order). -/
def addVote (acc : List (Int × Rat)) (p : Int × Rat) : List (Int × Rat) :=
  if dictHasKey acc p.1 then
    acc.map (fun q => if q.1 = p.1 then (q.1, q.2 + p.2) else q)
  else acc ++ [p]

/-- Accumulate every key of one learner's vote into the combined dict. -/
def addVotesToDict (acc vote : List (Int × Rat)) : List (Int × Rat) :=
  vote.foldl addVote acc

/-- The per-ensemble aggregation loop of
`AdaptiveRandomForest.get_votes_for_instance`: skip a learner whose vote
is empty or sums to no more than zero; normalize; unless weighted voting
is disabled multiply every value by the learner's evaluator performance;
accumulate into the combined dict. -/
def combineVotes (cops : ClassifierOps C X) (disable_weighted_vote : Bool)
    (learners : List (ARFBaseLearner C D)) (x : X) : List (Int × Rat) :=
  learners.foldl (fun combined l =>
    if l.get_votes_for_instance cops x ≠ []
        ∧ 0 < ((l.get_votes_for_instance cops x).map Prod.snd).sum then
      addVotesToDict combined
        (if !disable_weighted_vote then
          (normalize_values_in_dict (l.get_votes_for_instance cops x)).map
            (fun p => (p.1, p.2 * l.core.evaluator.get_performance))
        else normalize_values_in_dict (l.get_votes_for_instance cops x))
    else combined) []

/-- `AdaptiveRandomForest.get_votes_for_instance(self, X)`: lazily
initialize the ensemble on first use, then combine the ensemble's votes
in index order. -/
def AdaptiveRandomForest.get_votes_for_instance (ops : ManagerOps C D X R)
    (st : AdaptiveRandomForest C D R) (x : X) : List (Int × Rat) :=
  combineVotes ops.cops
    (if st.ensemble.isSome then st else st.init_ensemble ops (ops.dim x)).disable_weighted_vote
    ((if st.ensemble.isSome then st else st.init_ensemble ops (ops.dim x)).ensemble.getD [])
    x

/-- The per-learner contribution the spec's aggregation rule describes
for one label: nothing when the learner's vote mapping is empty or sums
to at most zero; otherwise the label's value normalized by the sum,
multiplied by the evaluator performance unless weighted voting is
disabled. -/
def learnerContribution (cops : ClassifierOps C X)
    (disable_weighted_vote : Bool) (l : ARFBaseLearner C D) (x : X)
    (k : Int) : Rat :=
  if l.get_votes_for_instance cops x ≠ []
      ∧ 0 < ((l.get_votes_for_instance cops x).map Prod.snd).sum then
    (dictLookup (l.get_votes_for_instance cops x) k
        / ((l.get_votes_for_instance cops x).map Prod.snd).sum)
      * (if !disable_weighted_vote then l.core.evaluator.get_performance else 1)
  else 0

/-- The sum of the values a vote list carries at one label (a dict has
each key once, but the list form allows repetition). -/
def voteSum (vote : List (Int × Rat)) (k : Int) : Rat :=
  ((vote.filter (fun p => p.1 = k)).map Prod.snd).sum

/-- Python `max(votes, key=votes.get)` over a non-empty dict: scan in
insertion order, replacing the current best only on a strictly greater
value (a tie keeps the earlier label). -/
def pyDictMax : List (Int × Rat) → Int × Rat → Int
  | [], best => best.1
  | p :: rest, best => pyDictMax rest (if best.2 < p.2 then p else best)

/-- One row of `AdaptiveRandomForest.predict`: empty combined votes yield
the default label 0, else the argmax of the combined votes. -/
def AdaptiveRandomForest.predict_row (ops : ManagerOps C D X R)
    (st : AdaptiveRandomForest C D R) (x : X) : Int :=
  match st.get_votes_for_instance ops x with
  | [] => 0
  | p :: rest => pyDictMax rest p

/-- `AdaptiveRandomForest.predict(self, X)`: one label per row. (The lazy
ensemble initialization the first row may trigger changes no quantity a
later row's votes read, so rows are independent.) -/
def AdaptiveRandomForest.predict (ops : ManagerOps C D X R)
    (st : AdaptiveRandomForest C D R) (xs : List X) : List Int :=
  xs.map (fun x => AdaptiveRandomForest.predict_row ops st x)

/-- One learner's slice of `AdaptiveRandomForest._partial_fit`: predict
for evaluator bookkeeping, update the evaluator with the row weight, draw
k from the shared Poisson source, and when k > 0 run the learner's
partial_fit with weight k and the global instance counter. -/
def AdaptiveRandomForest.fitLearner (ops : ManagerOps C D X R) (lam : Nat)
    (x : X) (y : Int) (w : Rat) (t : Nat)
    (acc : Except Unit (List (ARFBaseLearner C D) × R))
    (l : ARFBaseLearner C D) : Except Unit (List (ARFBaseLearner C D) × R) :=
  match acc with
  | .error e => .error e
  | .ok (ls, r) =>
    if (ops.poisson lam r).1 > 0 then
      match (ARFBaseLearner.mk
          { l.core with evaluator :=
              l.core.evaluator.update (l.predict ops.cops x) y w }
          l.background_learner).partial_fit ops.cops ops.dops x y
          ((ops.poisson lam r).1 : Rat) t with
      | .error e => .error e
      | .ok l2 => .ok (ls ++ [l2], (ops.poisson lam r).2)
    else
      .ok (ls ++ [ARFBaseLearner.mk
        { l.core with evaluator :=
            l.core.evaluator.update (l.predict ops.cops x) y w }
        l.background_learner], (ops.poisson lam r).2)

/-- The manager state as `_partial_fit` sees it after its first two
statements: the global instance counter bumped, and the ensemble lazily
initialized when absent. -/
def AdaptiveRandomForest.preFitState (ops : ManagerOps C D X R)
    (st : AdaptiveRandomForest C D R) (x : X) : AdaptiveRandomForest C D R :=
  if st.ensemble.isSome then { st with instances_seen := st.instances_seen + 1 }
  else AdaptiveRandomForest.init_ensemble ops
    { st with instances_seen := st.instances_seen + 1 } (ops.dim x)

/-- `AdaptiveRandomForest._partial_fit(self, X, y, weight)`: bump the
global instance counter, lazily initialize the ensemble, then run every
learner's slice in index order, threading the shared random source. -/
def AdaptiveRandomForest.partial_fit_one (ops : ManagerOps C D X R)
    (st : AdaptiveRandomForest C D R) (x : X) (y : Int) (w : Rat) :
    Except Unit (AdaptiveRandomForest C D R) :=
  match (AdaptiveRandomForest.preFitState ops st x).ensemble with
  | none => .error ()
  | some learners =>
    match learners.foldl
        (AdaptiveRandomForest.fitLearner ops st.lambda_value x y w
          (st.instances_seen + 1))
        (.ok ([], st.random_state)) with
    | .error e => .error e
    | .ok (ls, r) =>
      .ok { AdaptiveRandomForest.preFitState ops st x with
              ensemble := some ls
              random_state := r }

/-- One row of `AdaptiveRandomForest.partial_fit`'s loop: a row with zero
weight is skipped outright; otherwise the model's weight-seen total grows
by the row weight and the per-instance routine runs. -/
def AdaptiveRandomForest.fitRow (ops : ManagerOps C D X R)
    (st : AdaptiveRandomForest C D R) (row : (X × Int) × Rat) :
    Except Unit (AdaptiveRandomForest C D R) :=
  if row.2 ≠ 0 then
    AdaptiveRandomForest.partial_fit_one ops
      { st with train_weight_seen_by_model :=
          st.train_weight_seen_by_model + row.2 }
      row.1.1 row.1.2 row.2
  else .ok st

/-- `AdaptiveRandomForest.partial_fit(self, X, y, classes, weight)`: with
y None nothing happens; a missing weight becomes the shared [1.0]; a
weight list whose row count differs from X's is broadcast from its first
entry; then each row runs through the zero-weight guard in order. -/
def AdaptiveRandomForest.partial_fit (ops : ManagerOps C D X R)
    (st : AdaptiveRandomForest C D R) (xs : List X) (ys : Option (List Int))
    (weight : Option (List Rat)) :
    Except Unit (AdaptiveRandomForest C D R) :=
  match ys with
  | none => .ok st
  | some ys =>
    ((xs.zip ys).zip
        (if xs.length ≠ (weight.getD [1]).length then
          List.replicate xs.length ((weight.getD [1]).headD 0)
        else weight.getD [1])).foldlM
      (AdaptiveRandomForest.fitRow ops) st

/-- Trivial manager collaborators over unit types: every row has 10
features, every Poisson draw returns 1. -/
def unitMOps : ManagerOps Unit Unit Unit Unit where
  cops := unitCops
  dops := unitDops
  create_tree := fun _ => ()
  dim := fun _ => 10
  poisson := fun _ r => (1, r)

/-- Classifier whose state is an integer and is never changed by
training: used as a "tree" that records the max_features value it was
built with. -/
def intCops : ClassifierOps Int Unit where
  partial_fit := fun c _ _ _ => c
  predict := fun _ _ => 0
  get_votes_for_instance := fun _ _ => []
  new_instance := fun c => c
  reset := fun c => c

/-- Manager collaborators whose tree factory records the max_features
value each tree is built with. -/
def intMOps : ManagerOps Int Unit Unit Unit where
  cops := intCops
  dops := unitDops
  create_tree := fun mf => mf
  dim := fun _ => 10
  poisson := fun _ r => (1, r)

/-- A fresh manager configured with one tree and the 'auto'
feature-subsample policy. -/
def witManagerARF : AdaptiveRandomForest Int Unit Unit :=
  AdaptiveRandomForest.init 1 .strAuto false 6 (.detector ()) (.detector ()) ()

/-- Classifier whose state is its own vote mapping. -/
def voteCops : ClassifierOps (List (Int × Rat)) Unit where
  partial_fit := fun c _ _ _ => c
  predict := fun _ _ => 0
  get_votes_for_instance := fun c _ => c
  new_instance := fun c => c
  reset := fun c => c

/-- Manager collaborators for the vote-aggregation scenarios. -/
def voteMOps : ManagerOps (List (Int × Rat)) Unit Unit Unit where
  cops := voteCops
  dops := unitDops
  create_tree := fun _ => []
  dim := fun _ => 1
  poisson := fun _ r => (1, r)

/-- A learner that always casts the given votes, with the given evaluator
aggregate (performance = aggregate * 100). -/
def mkVoteLearner (votes : List (Int × Rat)) (agg : Rat) :
    ARFBaseLearner (List (Int × Rat)) Unit :=
  .mk
    { index_original := 0
      classifier := votes
      created_on := 0
      is_background_learner := false
      drift_detection_method := none
      warning_detection_method := none
      last_drift_on := 0
      last_warning_on := 0
      nb_drifts_detected := 0
      nb_warnings_detected := 0
      drift_detection := none
      warning_detection := none
      use_drift_detector := false
      use_background_learner := false
      evaluator := ⟨agg, 0⟩ }
    none

/-- A manager holding the given already-initialized ensemble. -/
def mkVoteManager (disable : Bool)
    (ls : List (ARFBaseLearner (List (Int × Rat)) Unit)) :
    AdaptiveRandomForest (List (Int × Rat)) Unit Unit where
  nb_ensemble := ls.length
  max_features := .intVal 1
  disable_weighted_vote := disable
  lambda_value := 6
  drift_detection_method := none
  warning_detection_method := none
  instances_seen := 1
  train_weight_seen_by_model := 1
  ensemble := some ls
  random_state := ()


/-- C7: `update(predicted, actual, weight)` adds `weight` to the running
aggregate exactly when weight > 0 and predicted equals actual, and changes
nothing otherwise; `get_performance()` returns the running aggregate
multiplied by the constant 100 (not normalized by instances seen);
`reset()` zeroes the aggregate. -/
theorem C7_evaluator_contract (e : ARFBaseClassifierEvaluator) (p a : Int) (w : Rat) :
    e.update p a w
      = (if 0 < w ∧ p = a then { e with aggregation := e.aggregation + w } else e)
    ∧ e.get_performance = e.aggregation * 100
    ∧ e.reset = ⟨0, 0⟩ := by
  refine ⟨?_, rfl, rfl⟩
  unfold ARFBaseClassifierEvaluator.update
  by_cases hw : 0 < w
  · by_cases hpa : p = a <;> simp [hw, hpa]
  · simp [hw]

/-- C4 counterexample: for the fraction 3/4 and n = 10 the source computes
`int(0.75 * 10) = 7` (truncation), while the claimed `round(0.75 * 10)`
is 8: the float branch does not round. -/
theorem C4_float_round_counterexample :
    set_max_features (MaxFeaturesSetting.floatVal (3 / 4)) 10 = 7
    ∧ round ((3 / 4 : Rat) * 10) = 8
    ∧ set_max_features (MaxFeaturesSetting.floatVal (3 / 4)) 10
        ≠ round ((3 / 4 : Rat) * 10) := by
  have hpy : pyIntOfRat ((3 / 4 : Rat) * (10 : Nat)) = 7 := by
    unfold pyIntOfRat
    have h1 : ((3 / 4 : Rat) * ((10 : Nat) : Rat)).num = 15 := by norm_num
    have h2 : ((3 / 4 : Rat) * ((10 : Nat) : Rat)).den = 2 := by norm_num
    rw [h1, h2]; decide
  have hv : set_max_features (MaxFeaturesSetting.floatVal (3 / 4)) 10 = 7 := by
    simp only [set_max_features, hpy]
    decide
  have h8 : round ((3 / 4 : Rat) * 10) = 8 := by norm_num [round_eq]
  refine ⟨hv, h8, ?_⟩
  rw [hv, h8]
  decide

/-- C4 (amended): the feature-subsample size computed from the first-seen
feature count n: 'auto'/'sqrt' give round(sqrt n), 'log2' gives
round(log2 n), an integer is used verbatim, a float gives int(fraction
times n) (truncation toward zero), None gives n, any other value falls
back to round(sqrt n); then a negative result has n added, a non-positive
result becomes 1 and a result exceeding n becomes n. For n = 10: 'auto'
gives 3, 'log2' gives 3, the fraction 2/5 gives 4, the integer -3 gives
7, the integer 15 gives 10; and for every policy the final value lies in
[1, n] whenever 1 ≤ n. -/
theorem C4_set_max_features_policy :
    set_max_features .strAuto 10 = 3
    ∧ set_max_features .strSqrt 10 = 3
    ∧ set_max_features .strLog2 10 = 3
    ∧ set_max_features (.floatVal (2 / 5)) 10 = 4
    ∧ set_max_features (.intVal (-3)) 10 = 7
    ∧ set_max_features (.intVal 15) 10 = 10
    ∧ set_max_features .noneVal 10 = 10
    ∧ set_max_features .otherVal 10 = 3
    ∧ (∀ (m : MaxFeaturesSetting) (n : Nat), 1 ≤ n →
        1 ≤ set_max_features m n ∧ set_max_features m n ≤ n) := by
  have hpy : pyIntOfRat ((2 / 5 : Rat) * (10 : Nat)) = 4 := by
    unfold pyIntOfRat
    have h1 : ((2 / 5 : Rat) * ((10 : Nat) : Rat)).num = 4 := by norm_num
    have h2 : ((2 / 5 : Rat) * ((10 : Nat) : Rat)).den = 1 := by norm_num
    rw [h1, h2]; decide
  have hfrac : set_max_features (.floatVal (2 / 5)) 10 = 4 := by
    simp only [set_max_features, hpy]
    decide
  refine ⟨by decide, by decide, by decide, hfrac, by decide, by decide,
    by decide, by decide, ?_⟩
  intro m n hn
  have hn' : (1 : Int) ≤ (n : Int) := by exact_mod_cast hn
  unfold set_max_features
  cases m <;> (simp only [] ; split_ifs <;> omega)

/-- Auxiliary: a successful warning phase leaves the background flag, the
drift detector, the shadowing policy flag, the classifier and the drift
count untouched, and either keeps the background slot or installs a
freshly initialized background learner. -/
theorem warningStep_shape {cops : ClassifierOps C X} {dops : DetectorOps D}
    {core core2 : LearnerCore C D} {bg bg2 : Option (ARFBaseLearner C D)}
    {bit t : Nat}
    (h : ARFBaseLearner.warningStep cops dops core bg bit t = .ok (core2, bg2)) :
    core2.is_background_learner = core.is_background_learner
    ∧ core2.drift_detection = core.drift_detection
    ∧ core2.use_background_learner = core.use_background_learner
    ∧ core2.classifier = core.classifier
    ∧ core2.nb_drifts_detected = core.nb_drifts_detected
    ∧ (bg2 = bg ∨ (core.is_background_learner = false
        ∧ ∃ c, bg2 = some (ARFBaseLearner.init core.index_original c t
            core.drift_detection_method core.warning_detection_method true))) := by
  unfold ARFBaseLearner.warningStep at h
  by_cases hg : (core.use_drift_detector && !core.is_background_learner
      && core.use_background_learner) = true
  · rw [if_pos hg] at h
    rcases hwv : core.warning_detection with _ | wdet
    · rw [hwv] at h
      exact Except.noConfusion h
    · rw [hwv] at h
      dsimp only at h
      by_cases hdet : dops.detected_change (dops.add_element wdet bit) = true
      · rw [if_pos hdet] at h
        simp only [Except.ok.injEq, Prod.mk.injEq] at h
        obtain ⟨hc, hb⟩ := h
        subst hc
        have hnotbg : core.is_background_learner = false := by
          simp only [Bool.and_eq_true, Bool.not_eq_true'] at hg
          exact hg.1.2
        exact ⟨rfl, rfl, rfl, rfl, rfl, Or.inr ⟨hnotbg, _, hb.symm⟩⟩
      · rw [if_neg hdet] at h
        simp only [Except.ok.injEq, Prod.mk.injEq] at h
        obtain ⟨hc, hb⟩ := h
        subst hc
        exact ⟨rfl, rfl, rfl, rfl, rfl, Or.inl hb.symm⟩
  · rw [if_neg hg] at h
    simp only [Except.ok.injEq, Prod.mk.injEq] at h
    obtain ⟨hc, hb⟩ := h
    subst hc
    exact ⟨rfl, rfl, rfl, rfl, rfl, Or.inl hb.symm⟩

/-- C1: code bug. With no drift-detection policy configured the learner
has no drift detector, yet `partial_fit` unconditionally feeds the error
bit through `self.drift_detection` (source line 351): every call fails
(attribute access through None) instead of training the classifier
without ever resetting, contradicting the constructor documentation
"Set to None to disable Drift detection". -/
theorem C1_absent_drift_detector_crash (cops : ClassifierOps C X)
    (dops : DetectorOps D) (l : ARFBaseLearner C D) (x : X) (y : Int)
    (w : Rat) (t : Nat) (h : l.core.drift_detection = none) :
    l.partial_fit cops dops x y w t = .error () := by
  rcases hmatch : ARFBaseLearner.warningStep cops dops
      (l.trainStep cops x y w).1 (l.trainStep cops x y w).2
      (ARFBaseLearner.errorBit cops (l.trainStep cops x y w).1 x y) t
    with e | s2
  · unfold ARFBaseLearner.partial_fit
    rw [hmatch]
  · obtain ⟨core2, bg2⟩ := s2
    have hdd : core2.drift_detection = none :=
      ((warningStep_shape hmatch).2.1).trans h
    unfold ARFBaseLearner.partial_fit
    rw [hmatch]
    dsimp only
    unfold ARFBaseLearner.driftStep
    rw [hdd]

/-- C1 witness: the concrete learner constructed with no drift-detection
policy crashes on its first partial_fit call. -/
theorem C1_absent_drift_detector_crash_witness :
    (ARFBaseLearner.init 0 () 0 none none false).partial_fit unitCops
      unitDops () 0 1 1 = .error () :=
  C1_absent_drift_detector_crash unitCops unitDops _ () 0 1 1 rfl

/-- C2: when the drift detector signals a change during `partial_fit`
(after the training and warning phases), the learner records the drift
timestamp, increments the drift count and runs `reset`: with a background
learner present its classifier, warning detector, drift detector and
created_on are transplanted into the parent and the slot becomes None;
with no background learner, the learner's own classifier and (just
updated) drift detector are reset in place and created_on is set to the
current instance counter; in both cases the evaluator is replaced by a
fresh zero-aggregate instance. -/
theorem C2_drift_confirmed_resets (cops : ClassifierOps C X)
    (dops : DetectorOps D) (l : ARFBaseLearner C D) (x : X) (y : Int)
    (w : Rat) (t : Nat) (core2 : LearnerCore C D)
    (bg2 : Option (ARFBaseLearner C D)) (d : D)
    (hw : ARFBaseLearner.warningStep cops dops (l.trainStep cops x y w).1
        (l.trainStep cops x y w).2
        (ARFBaseLearner.errorBit cops (l.trainStep cops x y w).1 x y) t
      = .ok (core2, bg2))
    (hd : core2.drift_detection = some d)
    (hfire : dops.detected_change (dops.add_element d
        (ARFBaseLearner.errorBit cops (l.trainStep cops x y w).1 x y)) = true)
    (hbg : bg2.isSome = true → core2.use_background_learner = true) :
    ∃ l', l.partial_fit cops dops x y w t = .ok l'
      ∧ l'.core.last_drift_on = t
      ∧ l'.core.nb_drifts_detected = core2.nb_drifts_detected + 1
      ∧ l'.core.evaluator = ARFBaseClassifierEvaluator.init
      ∧ (∀ b, bg2 = some b →
          l'.core.classifier = b.core.classifier
          ∧ l'.core.warning_detection = b.core.warning_detection
          ∧ l'.core.drift_detection = b.core.drift_detection
          ∧ l'.core.created_on = b.core.created_on
          ∧ l'.background_learner = none)
      ∧ (bg2 = none →
          l'.core.classifier = cops.reset core2.classifier
          ∧ l'.core.drift_detection = some (dops.reset (dops.add_element d
              (ARFBaseLearner.errorBit cops (l.trainStep cops x y w).1 x y)))
          ∧ l'.core.created_on = t
          ∧ l'.background_learner = none) := by
  unfold ARFBaseLearner.partial_fit
  rw [hw]
  dsimp only
  unfold ARFBaseLearner.driftStep
  rw [hd]
  dsimp only
  rw [hfire]
  simp only [if_true]
  unfold ARFBaseLearner.reset
  cases bg2 with
  | none =>
    dsimp only
    cases hu : core2.use_background_learner
    · refine ⟨_, rfl, rfl, rfl, rfl, ?_, ?_⟩
      · intro b hb
        exact absurd hb (by simp)
      · intro _
        exact ⟨rfl, rfl, rfl, rfl⟩
    · refine ⟨_, rfl, rfl, rfl, rfl, ?_, ?_⟩
      · intro b hb
        exact absurd hb (by simp)
      · intro _
        exact ⟨rfl, rfl, rfl, rfl⟩
  | some b =>
    have hu : core2.use_background_learner = true := hbg rfl
    dsimp only
    rw [hu]
    refine ⟨_, rfl, rfl, rfl, rfl, ?_, ?_⟩
    · intro b' hb'
      injection hb' with hb'
      subst hb'
      exact ⟨rfl, rfl, rfl, rfl, rfl⟩
    · intro hcontra
      exact absurd hcontra (by simp)

/-- C2 witness: the no-shadow learner with an armed drift detector at
instance 5 goes through the in-place reset branch. -/
theorem C2_drift_confirmed_resets_witness :
    ∃ l', witLearnerC2.partial_fit unitCops fireDops () 0 1 5 = .ok l'
      ∧ l'.core.last_drift_on = 5
      ∧ l'.core.nb_drifts_detected = witCoreC2.nb_drifts_detected + 1
      ∧ l'.core.evaluator = ARFBaseClassifierEvaluator.init
      ∧ (∀ b, (none : Option (ARFBaseLearner Unit Bool)) = some b →
          l'.core.classifier = b.core.classifier
          ∧ l'.core.warning_detection = b.core.warning_detection
          ∧ l'.core.drift_detection = b.core.drift_detection
          ∧ l'.core.created_on = b.core.created_on
          ∧ l'.background_learner = none)
      ∧ ((none : Option (ARFBaseLearner Unit Bool)) = none →
          l'.core.classifier = unitCops.reset witCoreC2.classifier
          ∧ l'.core.drift_detection = some (fireDops.reset (fireDops.add_element true
              (ARFBaseLearner.errorBit unitCops
                (witLearnerC2.trainStep unitCops () 0 1).1 () 0)))
          ∧ l'.core.created_on = 5
          ∧ l'.background_learner = none) :=
  C2_drift_confirmed_resets unitCops fireDops witLearnerC2 () 0 1 5 witCoreC2
    none true rfl rfl rfl (fun h => nomatch h)

/-- Auxiliary: a background slot produced by the training phase retrains
the shadow's classifier but keeps its flag and its own (empty) slot. -/
theorem trainStep_background {cops : ClassifierOps C X}
    {l : ARFBaseLearner C D} {x : X} {y : Int} {w : Rat}
    {b' : ARFBaseLearner C D}
    (h : (l.trainStep cops x y w).2 = some b') :
    ∃ b, l.background_learner = some b
      ∧ b'.core.is_background_learner = b.core.is_background_learner
      ∧ b'.background_learner = b.background_learner := by
  unfold ARFBaseLearner.trainStep at h
  dsimp only at h
  rcases hbgL : l.background_learner with _ | b
  · rw [hbgL] at h
    simp at h
  · rw [hbgL] at h
    simp only [Option.map_some'] at h
    injection h with h
    subst h
    exact ⟨b, rfl, rfl, rfl⟩

/-- Auxiliary: reset preserves the no-nested-shadowing invariant. -/
theorem noNested_reset {cops : ClassifierOps C X} {dops : DetectorOps D}
    {l l' : ARFBaseLearner C D} {t : Nat}
    (hn : NoNestedBackground l) (h : l.reset cops dops t = .ok l') :
    NoNestedBackground l' := by
  obtain ⟨core, bg⟩ := l
  unfold ARFBaseLearner.reset at h
  dsimp only at h
  cases bg with
  | none =>
    cases hu : core.use_background_learner <;> rw [hu] at h <;> dsimp only at h
    all_goals
      rcases hdd : core.drift_detection with _ | d
    · rw [hdd] at h
      exact Except.noConfusion h
    · rw [hdd] at h
      dsimp only at h
      injection h with h
      subst h
      exact ⟨fun hbt => hn.1 hbt, fun b hb => hn.2 b hb⟩
    · rw [hdd] at h
      exact Except.noConfusion h
    · rw [hdd] at h
      dsimp only at h
      injection h with h
      subst h
      exact ⟨fun hbt => hn.1 hbt, fun b hb => hn.2 b hb⟩
  | some b =>
    cases hu : core.use_background_learner <;> rw [hu] at h <;> dsimp only at h
    · rcases hdd : core.drift_detection with _ | d
      · rw [hdd] at h
        exact Except.noConfusion h
      · rw [hdd] at h
        dsimp only at h
        injection h with h
        subst h
        exact ⟨fun hbt => hn.1 hbt, fun b' hb' => hn.2 b' hb'⟩
    · injection h with h
      subst h
      exact ⟨fun _ => rfl, fun b' hb' => nomatch hb'⟩

/-- Auxiliary: successful partial_fit preserves the no-nested-shadowing
invariant. -/
theorem noNested_partial_fit {cops : ClassifierOps C X} {dops : DetectorOps D}
    {l l' : ARFBaseLearner C D} {x : X} {y : Int} {w : Rat} {t : Nat}
    (hn : NoNestedBackground l)
    (h : l.partial_fit cops dops x y w t = .ok l') :
    NoNestedBackground l' := by
  unfold ARFBaseLearner.partial_fit at h
  rcases hw : ARFBaseLearner.warningStep cops dops (l.trainStep cops x y w).1
      (l.trainStep cops x y w).2
      (ARFBaseLearner.errorBit cops (l.trainStep cops x y w).1 x y) t
    with e | s2
  · rw [hw] at h
    exact Except.noConfusion h
  · obtain ⟨core2, bg2⟩ := s2
    rw [hw] at h
    dsimp only at h
    obtain ⟨hbgflag, _, _, _, _, hslot⟩ := warningStep_shape hw
    have hp1 : core2.is_background_learner = true → bg2 = none := by
      intro hbt
      rw [hbgflag] at hbt
      rcases hslot with hsame | ⟨hfalse, _, _⟩
      · have hlb : l.background_learner = none := hn.1 hbt
        rw [hsame]
        unfold ARFBaseLearner.trainStep
        dsimp only
        rw [hlb]
        rfl
      · rw [hfalse] at hbt
        exact Bool.noConfusion hbt
    have hp2 : ∀ b, bg2 = some b →
        b.core.is_background_learner = true ∧ b.background_learner = none := by
      intro b hb
      rcases hslot with hsame | ⟨_, c, hfresh⟩
      · rw [hsame] at hb
        obtain ⟨b0, hb0, hflagEq, hbgEq⟩ := trainStep_background hb
        have hprops := hn.2 b0 hb0
        exact ⟨hflagEq.trans hprops.1, hbgEq.trans hprops.2⟩
      · rw [hfresh] at hb
        injection hb with hb
        subst hb
        exact ⟨rfl, rfl⟩
    unfold ARFBaseLearner.driftStep at h
    rcases hdd : core2.drift_detection with _ | d
    · rw [hdd] at h
      exact Except.noConfusion h
    · rw [hdd] at h
      dsimp only at h
      split at h
      · refine noNested_reset ?_ h
        exact ⟨hp1, hp2⟩
      · injection h with h
        subst h
        exact ⟨hp1, hp2⟩

/-- Auxiliary: every reachable learner satisfies the no-nested-shadowing
invariant. -/
theorem reachable_noNested {cops : ClassifierOps C X} {dops : DetectorOps D}
    {l : ARFBaseLearner C D} (h : ReachableLearner cops dops l) :
    NoNestedBackground l := by
  induction h with
  | init i c t ddm wdm fb => exact ⟨fun _ => rfl, fun b hb => nomatch hb⟩
  | fit l x y w t l' _ hfit ih => exact noNested_partial_fit ih hfit
  | reset_call l t l' _ hres ih => exact noNested_reset ih hres

/-- C9: in every reachable learner state, a learner flagged as a
background learner has an empty background slot: no operation ever
creates a background learner inside a background learner. -/
theorem C9_no_recursive_shadowing (cops : ClassifierOps C X)
    (dops : DetectorOps D) (l : ARFBaseLearner C D)
    (h : ReachableLearner cops dops l)
    (hb : l.core.is_background_learner = true) :
    l.background_learner = none :=
  (reachable_noNested h).1 hb

/-- C9 witness: a freshly constructed background learner owns no
background learner. -/
theorem C9_no_recursive_shadowing_witness :
    (ARFBaseLearner.init 0 () 0 (some ()) (some ()) true
      : ARFBaseLearner Unit Unit).background_learner = none :=
  C9_no_recursive_shadowing unitCops unitDops _
    (ReachableLearner.init 0 () 0 (some ()) (some ()) true) rfl

/-- C10: a constructor argument for either detector method that is not a
BaseDriftDetector instance (None, a string, a number) raises no error —
the constructor is a total function — and is silently stored as None, so
the corresponding monitoring path is disabled exactly as if None had
been passed explicitly. -/
theorem C10_non_detector_arg_disables (nb : Nat) (mf : MaxFeaturesSetting)
    (dw : Bool) (lam : Nat) (da wa : DetectorArg D) (r : R)
    (hda : da.isBaseDriftDetector = false)
    (hwa : wa.isBaseDriftDetector = false) :
    (AdaptiveRandomForest.init nb mf dw lam da wa r
        : AdaptiveRandomForest C D R).drift_detection_method = none
    ∧ (AdaptiveRandomForest.init nb mf dw lam da wa r
        : AdaptiveRandomForest C D R).warning_detection_method = none
    ∧ (AdaptiveRandomForest.init nb mf dw lam da wa r
        : AdaptiveRandomForest C D R)
      = AdaptiveRandomForest.init nb mf dw lam DetectorArg.noneArg
          DetectorArg.noneArg r := by
  cases da <;> cases wa <;>
    simp_all [AdaptiveRandomForest.init, DetectorArg.isBaseDriftDetector]

/-- C10 witness: a string for the drift method and a number for the
warning method both store None, matching the explicit-None constructor
call. -/
theorem C10_non_detector_arg_disables_witness :
    (AdaptiveRandomForest.init 10 .strAuto false 6 (DetectorArg.strArg "adwin")
        (DetectorArg.numArg 3) ()
        : AdaptiveRandomForest Unit Unit Unit).drift_detection_method = none
    ∧ (AdaptiveRandomForest.init 10 .strAuto false 6
        (DetectorArg.strArg "adwin") (DetectorArg.numArg 3) ()
        : AdaptiveRandomForest Unit Unit Unit).warning_detection_method = none
    ∧ (AdaptiveRandomForest.init 10 .strAuto false 6
        (DetectorArg.strArg "adwin") (DetectorArg.numArg 3) ()
        : AdaptiveRandomForest Unit Unit Unit)
      = AdaptiveRandomForest.init 10 .strAuto false 6 DetectorArg.noneArg
          DetectorArg.noneArg () :=
  C10_non_detector_arg_disables 10 .strAuto false 6 (DetectorArg.strArg "adwin")
    (DetectorArg.numArg 3) () rfl rfl

/-- C5: code bug. `reset()` overwrites the max_features attribute with
the integer 0 and keeps the advanced random source, so re-training after
reset lazily computes a feature-subsample size of 1 where a fresh manager
with the same 'auto' policy and 10 features computes round(sqrt 10) = 3:
the retrained ensemble's trees are built with subsample size 1, the fresh
manager's with 3, so retraining after reset is not bit-identical to a
fresh run. -/
theorem C5_reset_breaks_reproducibility :
    (witManagerARF.reset.init_ensemble intMOps 10).max_features
        = MaxFeaturesSetting.intVal 1
    ∧ (witManagerARF.init_ensemble intMOps 10).max_features
        = MaxFeaturesSetting.intVal 3
    ∧ ((witManagerARF.reset.init_ensemble intMOps 10).ensemble.getD []).map
        (fun l => l.core.classifier) = [1]
    ∧ ((witManagerARF.init_ensemble intMOps 10).ensemble.getD []).map
        (fun l => l.core.classifier) = [3]
    ∧ witManagerARF.reset.random_state = witManagerARF.random_state := by
  refine ⟨by decide, by decide, ?_, ?_, rfl⟩ <;> decide

/-- Auxiliary: a label absent from a dict reads as 0. -/
theorem dictLookup_eq_zero_of_not_hasKey {acc : List (Int × Rat)} {k : Int}
    (h : dictHasKey acc k = false) : dictLookup acc k = 0 := by
  induction acc with
  | nil => rfl
  | cons p rest ih =>
    unfold dictHasKey at h
    simp only [Bool.or_eq_false_iff, decide_eq_false_iff_not] at h
    unfold dictLookup
    rw [if_neg h.1]
    exact ih h.2

/-- Auxiliary: looking a label up in an appended dict. -/
theorem dictLookup_append (acc l2 : List (Int × Rat)) (k : Int) :
    dictLookup (acc ++ l2) k
      = if dictHasKey acc k then dictLookup acc k else dictLookup l2 k := by
  induction acc with
  | nil => simp [dictLookup, dictHasKey]
  | cons p rest ih =>
    by_cases hpk : p.1 = k
    · simp [dictLookup, dictHasKey, hpk]
    · simp [dictLookup, dictHasKey, hpk, ih]

/-- Auxiliary: the value-update map inside addVote leaves other labels
unchanged. -/
theorem dictLookup_addVote_map_ne {acc : List (Int × Rat)} {p : Int × Rat}
    {k : Int} (hk : p.1 ≠ k) :
    dictLookup (acc.map (fun q => if q.1 = p.1 then (q.1, q.2 + p.2) else q)) k
      = dictLookup acc k := by
  induction acc with
  | nil => rfl
  | cons q rest ih =>
    rw [List.map_cons]
    by_cases hq : q.1 = p.1
    · rw [if_pos hq]
      have hqk : q.1 ≠ k := by rw [hq]; exact hk
      unfold dictLookup
      rw [if_neg hqk, if_neg hqk]
      exact ih
    · rw [if_neg hq]
      unfold dictLookup
      by_cases hqk : q.1 = k
      · rw [if_pos hqk, if_pos hqk]
      · rw [if_neg hqk, if_neg hqk]
        exact ih

/-- Auxiliary: the value-update map adds p.2 at label p.1 when the label
is present. -/
theorem dictLookup_addVote_map_eq {acc : List (Int × Rat)} {p : Int × Rat}
    (h : dictHasKey acc p.1 = true) :
    dictLookup (acc.map (fun q => if q.1 = p.1 then (q.1, q.2 + p.2) else q))
        p.1
      = dictLookup acc p.1 + p.2 := by
  induction acc with
  | nil => exact Bool.noConfusion h
  | cons q rest ih =>
    by_cases hq : q.1 = p.1
    · simp [dictLookup, hq]
    · unfold dictHasKey at h
      simp only [Bool.or_eq_true, decide_eq_true_eq] at h
      rcases h with h | h
      · exact absurd h hq
      · simp [dictLookup, hq, ih h]

/-- Auxiliary: one addVote's effect on every label. -/
theorem dictLookup_addVote (acc : List (Int × Rat)) (p : Int × Rat)
    (k : Int) :
    dictLookup (addVote acc p) k
      = dictLookup acc k + (if p.1 = k then p.2 else 0) := by
  unfold addVote
  by_cases hmem : dictHasKey acc p.1 = true
  · rw [if_pos hmem]
    by_cases hk : p.1 = k
    · subst hk
      rw [if_pos rfl, dictLookup_addVote_map_eq hmem]
    · rw [if_neg hk, dictLookup_addVote_map_ne hk, add_zero]
  · rw [if_neg hmem, dictLookup_append]
    have hfalse : dictHasKey acc p.1 = false := by
      simpa using hmem
    by_cases hk : p.1 = k
    · subst hk
      rw [if_neg (by simp [hfalse]), if_pos rfl,
        dictLookup_eq_zero_of_not_hasKey hfalse]
      simp [dictLookup]
    · by_cases hak : dictHasKey acc k = true
      · rw [if_pos hak, if_neg hk, add_zero]
      · have hak' : dictHasKey acc k = false := by simpa using hak
        rw [if_neg (by simp [hak']), if_neg hk, add_zero,
          dictLookup_eq_zero_of_not_hasKey hak']
        simp [dictLookup, hk]

/-- Auxiliary: voteSum unfolds per entry. -/
theorem voteSum_cons (p : Int × Rat) (rest : List (Int × Rat)) (k : Int) :
    voteSum (p :: rest) k = (if p.1 = k then p.2 else 0) + voteSum rest k := by
  unfold voteSum
  by_cases hk : p.1 = k <;> simp [List.filter_cons, hk]

/-- Auxiliary: adding one learner's whole vote dict moves every label by
the sum the vote carries there. -/
theorem dictLookup_addVotesToDict (vote : List (Int × Rat)) :
    ∀ (acc : List (Int × Rat)) (k : Int),
      dictLookup (addVotesToDict acc vote) k
        = dictLookup acc k + voteSum vote k := by
  induction vote with
  | nil => intro acc k; simp [addVotesToDict, voteSum]
  | cons p rest ih =>
    intro acc k
    unfold addVotesToDict at *
    rw [List.foldl_cons, ih (addVote acc p) k, dictLookup_addVote,
      voteSum_cons]
    ring

/-- Auxiliary: the sum a vote list carries at an absent label is 0. -/
theorem voteSum_eq_zero_of_not_mem {vote : List (Int × Rat)} {k : Int}
    (h : k ∉ vote.map Prod.fst) : voteSum vote k = 0 := by
  induction vote with
  | nil => rfl
  | cons p rest ih =>
    simp only [List.map_cons, List.mem_cons] at h
    push_neg at h
    rw [voteSum_cons, if_neg (fun hpk => h.1 hpk.symm), ih h.2, zero_add]

/-- Auxiliary: a key-preserving value-map over a duplicate-free dict acts
pointwise. -/
theorem voteSum_map_values {vote : List (Int × Rat)}
    (hnd : (vote.map Prod.fst).Nodup) (f : Int × Rat → Int × Rat)
    (g : Rat → Rat) (hf : ∀ p, f p = (p.1, g p.2)) (k : Int) :
    voteSum (vote.map f) k
      = if dictHasKey vote k then g (dictLookup vote k) else 0 := by
  induction vote with
  | nil => simp [voteSum, dictHasKey]
  | cons p rest ih =>
    simp only [List.map_cons, List.nodup_cons] at hnd
    rw [List.map_cons, hf p, voteSum_cons]
    by_cases hk : p.1 = k
    · subst hk
      have hnot : p.1 ∉ (rest.map f).map Prod.fst := by
        intro hmem
        apply hnd.1
        simp only [List.map_map, List.mem_map, Function.comp] at hmem
        obtain ⟨q0, hq0, hq⟩ := hmem
        rw [hf q0] at hq
        exact List.mem_map.mpr ⟨q0, hq0, hq⟩
      rw [voteSum_eq_zero_of_not_mem hnot]
      simp [dictHasKey, dictLookup]
    · rw [ih hnd.2]
      simp [dictHasKey, dictLookup, hk]

/-- Auxiliary: one learner's step of the aggregation loop moves every
label by exactly that learner's spec contribution. -/
theorem dictLookup_voteStep (cops : ClassifierOps C X) (dwv : Bool)
    (l : ARFBaseLearner C D) (x : X) (k : Int) (acc : List (Int × Rat))
    (hnd : ((l.get_votes_for_instance cops x).map Prod.fst).Nodup) :
    dictLookup (if l.get_votes_for_instance cops x ≠ []
        ∧ 0 < ((l.get_votes_for_instance cops x).map Prod.snd).sum then
      addVotesToDict acc
        (if !dwv then
          (normalize_values_in_dict (l.get_votes_for_instance cops x)).map
            (fun p => (p.1, p.2 * l.core.evaluator.get_performance))
        else normalize_values_in_dict (l.get_votes_for_instance cops x))
    else acc) k
      = dictLookup acc k + learnerContribution cops dwv l x k := by
  by_cases hc : l.get_votes_for_instance cops x ≠ []
      ∧ 0 < ((l.get_votes_for_instance cops x).map Prod.snd).sum
  · rw [if_pos hc, dictLookup_addVotesToDict]
    unfold learnerContribution
    rw [if_pos hc]
    cases dwv with
    | false =>
      rw [show (!false) = true from rfl, if_pos rfl]
      have hmap : (normalize_values_in_dict
            (l.get_votes_for_instance cops x)).map
              (fun p => (p.1, p.2 * l.core.evaluator.get_performance))
          = (l.get_votes_for_instance cops x).map
              (fun p => (p.1, p.2
                / ((l.get_votes_for_instance cops x).map Prod.snd).sum
                * l.core.evaluator.get_performance)) := by
        unfold normalize_values_in_dict
        rw [List.map_map]
        rfl
      rw [hmap, voteSum_map_values hnd _
        (fun t => t / ((l.get_votes_for_instance cops x).map Prod.snd).sum
          * l.core.evaluator.get_performance) (fun p => rfl) k]
      by_cases hk : dictHasKey (l.get_votes_for_instance cops x) k = true
      · rw [if_pos hk]
        simp
      · have hk' : dictHasKey (l.get_votes_for_instance cops x) k = false := by
          simpa using hk
        rw [if_neg (by simp [hk']), dictLookup_eq_zero_of_not_hasKey hk']
        simp
    | true =>
      rw [show (!true) = false from rfl, if_neg (by simp)]
      have hmap : normalize_values_in_dict (l.get_votes_for_instance cops x)
          = (l.get_votes_for_instance cops x).map
              (fun p => (p.1, p.2
                / ((l.get_votes_for_instance cops x).map Prod.snd).sum)) := by
        unfold normalize_values_in_dict
        rfl
      rw [hmap, voteSum_map_values hnd _
        (fun t => t / ((l.get_votes_for_instance cops x).map Prod.snd).sum)
        (fun p => rfl) k]
      by_cases hk : dictHasKey (l.get_votes_for_instance cops x) k = true
      · rw [if_pos hk]
        simp
      · have hk' : dictHasKey (l.get_votes_for_instance cops x) k = false := by
          simpa using hk
        rw [if_neg (by simp [hk']), dictLookup_eq_zero_of_not_hasKey hk']
        simp
  · rw [if_neg hc]
    unfold learnerContribution
    rw [if_neg hc, add_zero]

/-- Auxiliary: pointwise, the aggregation loop is the sum of the
per-learner contributions, for any starting accumulator. -/
theorem dictLookup_combineVotes_aux (cops : ClassifierOps C X) (dwv : Bool)
    (x : X) (k : Int) :
    ∀ (ls : List (ARFBaseLearner C D)) (acc : List (Int × Rat)),
      (∀ l ∈ ls, ((l.get_votes_for_instance cops x).map Prod.fst).Nodup) →
      dictLookup (ls.foldl (fun combined l =>
        if l.get_votes_for_instance cops x ≠ []
            ∧ 0 < ((l.get_votes_for_instance cops x).map Prod.snd).sum then
          addVotesToDict combined
            (if !dwv then
              (normalize_values_in_dict (l.get_votes_for_instance cops x)).map
                (fun p => (p.1, p.2 * l.core.evaluator.get_performance))
            else normalize_values_in_dict (l.get_votes_for_instance cops x))
        else combined) acc) k
        = dictLookup acc k
          + (ls.map (fun l => learnerContribution cops dwv l x k)).sum := by
  intro ls
  induction ls with
  | nil => intro acc _; simp
  | cons l0 rest ih =>
    intro acc hnd
    rw [List.foldl_cons, List.map_cons, List.sum_cons,
      ih _ (fun l hl => hnd l (List.mem_cons_of_mem _ hl)),
      dictLookup_voteStep cops dwv l0 x k acc (hnd l0 (List.mem_cons_self _ _))]
    ring

/-- Auxiliary: the manager's get_votes_for_instance on an initialized
ensemble is the aggregation loop over its learners. -/
theorem get_votes_for_instance_eq_combine {ops : ManagerOps C D X R}
    {st : AdaptiveRandomForest C D R} {ls : List (ARFBaseLearner C D)}
    (h : st.ensemble = some ls) (x : X) :
    st.get_votes_for_instance ops x
      = combineVotes ops.cops st.disable_weighted_vote ls x := by
  unfold AdaptiveRandomForest.get_votes_for_instance
  simp [h]

/-- C3: get_votes_for_instance aggregates per-learner votes pointwise: a
learner whose vote mapping is empty or sums to zero contributes nothing;
every other learner's mapping is normalized to sum to 1, then (unless
weighted voting is disabled) scaled by that learner's evaluator
performance, and the results are summed per label; the manager method on
an initialized ensemble is exactly that loop. In particular, with two
learners of evaluator performances 50 and 150 each voting the single
label 0 with count 1, the combined vote for that label is 200 with
weighted voting enabled and 2 with it disabled. -/
theorem C3_vote_aggregation :
    (∀ (A B E : Type) (cops : ClassifierOps A E) (dwv : Bool)
        (learners : List (ARFBaseLearner A B)) (x : E) (k : Int),
      (∀ l ∈ learners,
        ((l.get_votes_for_instance cops x).map Prod.fst).Nodup) →
      dictLookup (combineVotes cops dwv learners x) k
        = (learners.map (fun l => learnerContribution cops dwv l x k)).sum)
    ∧ (∀ (A B R' E : Type) (ops : ManagerOps A B E R')
        (st : AdaptiveRandomForest A B R')
        (ls : List (ARFBaseLearner A B)) (x : E),
      st.ensemble = some ls →
      st.get_votes_for_instance ops x
        = combineVotes ops.cops st.disable_weighted_vote ls x)
    ∧ dictLookup (AdaptiveRandomForest.get_votes_for_instance voteMOps
        (mkVoteManager false
          [mkVoteLearner [(0, 1)] (1 / 2), mkVoteLearner [(0, 1)] (3 / 2)])
        ()) 0
      = 200
    ∧ dictLookup (AdaptiveRandomForest.get_votes_for_instance voteMOps
        (mkVoteManager true
          [mkVoteLearner [(0, 1)] (1 / 2), mkVoteLearner [(0, 1)] (3 / 2)])
        ()) 0
      = 2 := by
  refine ⟨?_, ?_, ?_, ?_⟩
  · intro A B E cops dwv learners x k h
    unfold combineVotes
    exact (dictLookup_combineVotes_aux cops dwv x k learners [] h).trans
      (by simp [dictLookup])
  · intro A B R' E ops st ls x h
    exact get_votes_for_instance_eq_combine h x
  · norm_num [AdaptiveRandomForest.get_votes_for_instance, mkVoteManager,
      mkVoteLearner, voteMOps, voteCops, combineVotes,
      ARFBaseLearner.get_votes_for_instance, ARFBaseLearner.core,
      normalize_values_in_dict, addVotesToDict, addVote, dictHasKey,
      dictLookup, ARFBaseClassifierEvaluator.get_performance]
  · norm_num [AdaptiveRandomForest.get_votes_for_instance, mkVoteManager,
      mkVoteLearner, voteMOps, voteCops, combineVotes,
      ARFBaseLearner.get_votes_for_instance, ARFBaseLearner.core,
      normalize_values_in_dict, addVotesToDict, addVote, dictHasKey,
      dictLookup, ARFBaseClassifierEvaluator.get_performance]

/-- Auxiliary: Python max-by-value returns the first entry attaining the
maximal value: the scanned list splits at that entry, everything before
it is strictly smaller, everything after it no larger. -/
theorem pyDictMax_first_argmax :
    ∀ (l : List (Int × Rat)) (best : Int × Rat),
      ∃ v l1 l2, best :: l = l1 ++ (pyDictMax l best, v) :: l2
        ∧ (∀ q ∈ l1, q.2 < v) ∧ (∀ q ∈ l2, q.2 ≤ v) := by
  intro l
  induction l with
  | nil =>
    intro best
    exact ⟨best.2, [], [], by simp [pyDictMax], by simp, by simp⟩
  | cons p rest ih =>
    intro best
    by_cases hb : best.2 < p.2
    · obtain ⟨v, l1, l2, hsplit, hl1, hl2⟩ := ih p
      have hmax : pyDictMax (p :: rest) best = pyDictMax rest p := by
        show pyDictMax rest (if best.2 < p.2 then p else best) = pyDictMax rest p
        rw [if_pos hb]
      rcases l1 with _ | ⟨q0, l1t⟩
      · simp only [List.nil_append] at hsplit
        injection hsplit with h1 h2
        refine ⟨v, [best], l2, ?_, ?_, hl2⟩
        · rw [hmax]
          simp only [List.cons_append, List.nil_append]
          rw [← h1, ← h2]
        · intro q hq
          simp only [List.mem_singleton] at hq
          subst hq
          have hpv : p.2 = v := congrArg Prod.snd h1
          rw [← hpv]
          exact hb
      · simp only [List.cons_append] at hsplit
        injection hsplit with h1 h2
        refine ⟨v, best :: q0 :: l1t, l2, ?_, ?_, hl2⟩
        · rw [hmax]
          simp only [List.cons_append]
          rw [← h1, ← h2]
        · intro q hq
          rcases List.mem_cons.mp hq with hq | hq
          · subst hq
            have hp1 : p.2 < v := by
              rw [h1]
              exact hl1 q0 (List.mem_cons_self _ _)
            exact lt_trans hb hp1
          · exact hl1 q hq
    · obtain ⟨v, l1, l2, hsplit, hl1, hl2⟩ := ih best
      have hmax : pyDictMax (p :: rest) best = pyDictMax rest best := by
        show pyDictMax rest (if best.2 < p.2 then p else best)
          = pyDictMax rest best
        rw [if_neg hb]
      rcases l1 with _ | ⟨q0, l1t⟩
      · simp only [List.nil_append] at hsplit
        injection hsplit with h1 h2
        refine ⟨v, [], p :: l2, ?_, by simp, ?_⟩
        · rw [hmax]
          simp only [List.nil_append]
          rw [← h1, ← h2]
        · intro q hq
          rcases List.mem_cons.mp hq with hq | hq
          · subst hq
            have hbv : best.2 = v := congrArg Prod.snd h1
            rw [← hbv]
            exact le_of_not_lt hb
          · exact hl2 q hq
      · simp only [List.cons_append] at hsplit
        injection hsplit with h1 h2
        refine ⟨v, best :: p :: l1t, l2, ?_, ?_, hl2⟩
        · rw [hmax]
          simp only [List.cons_append]
          rw [← h2]
        · intro q hq
          have hbest : best.2 < v := by
            rw [h1]
            exact hl1 q0 (List.mem_cons_self _ _)
          rcases List.mem_cons.mp hq with hq | hq
          · subst hq
            exact hbest
          · rcases List.mem_cons.mp hq with hq | hq
            · subst hq
              exact lt_of_le_of_lt (le_of_not_lt hb) hbest
            · exact hl1 q (List.mem_cons_of_mem _ hq)

/-- C6 (amended): for every row, if the combined vote mapping is empty
then predict returns the default label 0 without raising; otherwise it
returns the first label, in the combined mapping's insertion order, that
attains the maximum aggregated vote — a deterministic tie-break by
insertion position, not by a fixed total order on the labels. -/
theorem C6_predict_default_and_argmax (ops : ManagerOps C D X R)
    (st : AdaptiveRandomForest C D R) (x : X) :
    (st.get_votes_for_instance ops x = [] →
      AdaptiveRandomForest.predict ops st [x] = [0])
    ∧ (∀ p rest, st.get_votes_for_instance ops x = p :: rest →
      ∃ v l1 l2, p :: rest
          = l1 ++ (AdaptiveRandomForest.predict_row ops st x, v) :: l2
        ∧ (∀ q ∈ l1, q.2 < v) ∧ (∀ q ∈ l2, q.2 ≤ v)
        ∧ AdaptiveRandomForest.predict ops st [x]
          = [AdaptiveRandomForest.predict_row ops st x]) := by
  constructor
  · intro h
    unfold AdaptiveRandomForest.predict AdaptiveRandomForest.predict_row
    simp [h]
  · intro p rest h
    obtain ⟨v, l1, l2, hsplit, hl1, hl2⟩ := pyDictMax_first_argmax rest p
    have hrow : AdaptiveRandomForest.predict_row ops st x
        = pyDictMax rest p := by
      unfold AdaptiveRandomForest.predict_row
      rw [h]
    rw [hrow]
    exact ⟨v, l1, l2, hsplit, hl1, hl2,
      by simp [AdaptiveRandomForest.predict, hrow]⟩

/-- C6 counterexample: two ensembles whose combined vote mapping is the
same mapping (label 1 ↦ 1, label 0 ↦ 1; the two vote lists are
permutations of each other) but filled in different insertion orders;
predict returns 1 for one and 0 for the other, so the tie is broken by
insertion order, not by any fixed deterministic total order on labels. -/
theorem C6_tie_break_counterexample :
    (AdaptiveRandomForest.get_votes_for_instance voteMOps
        (mkVoteManager true
          [mkVoteLearner [(1, 1)] 0, mkVoteLearner [(0, 1)] 0]) ()).Perm
      (AdaptiveRandomForest.get_votes_for_instance voteMOps
        (mkVoteManager true
          [mkVoteLearner [(0, 1)] 0, mkVoteLearner [(1, 1)] 0]) ())
    ∧ AdaptiveRandomForest.predict voteMOps
        (mkVoteManager true
          [mkVoteLearner [(1, 1)] 0, mkVoteLearner [(0, 1)] 0]) [()] = [1]
    ∧ AdaptiveRandomForest.predict voteMOps
        (mkVoteManager true
          [mkVoteLearner [(0, 1)] 0, mkVoteLearner [(1, 1)] 0]) [()] = [0] := by
  have h1 : AdaptiveRandomForest.get_votes_for_instance voteMOps
      (mkVoteManager true
        [mkVoteLearner [(1, 1)] 0, mkVoteLearner [(0, 1)] 0]) ()
      = [(1, 1), (0, 1)] := by
    norm_num [AdaptiveRandomForest.get_votes_for_instance, mkVoteManager,
      mkVoteLearner, voteMOps, voteCops, combineVotes,
      ARFBaseLearner.get_votes_for_instance, ARFBaseLearner.core,
      normalize_values_in_dict, addVotesToDict, addVote, dictHasKey,
      dictLookup]
  have h2 : AdaptiveRandomForest.get_votes_for_instance voteMOps
      (mkVoteManager true
        [mkVoteLearner [(0, 1)] 0, mkVoteLearner [(1, 1)] 0]) ()
      = [(0, 1), (1, 1)] := by
    norm_num [AdaptiveRandomForest.get_votes_for_instance, mkVoteManager,
      mkVoteLearner, voteMOps, voteCops, combineVotes,
      ARFBaseLearner.get_votes_for_instance, ARFBaseLearner.core,
      normalize_values_in_dict, addVotesToDict, addVote, dictHasKey,
      dictLookup]
  refine ⟨?_, ?_, ?_⟩
  · rw [h1, h2]
    exact List.Perm.swap (0, 1) (1, 1) []
  · unfold AdaptiveRandomForest.predict
    simp only [List.map]
    unfold AdaptiveRandomForest.predict_row
    rw [h1]
    norm_num [pyDictMax]
  · unfold AdaptiveRandomForest.predict
    simp only [List.map]
    unfold AdaptiveRandomForest.predict_row
    rw [h2]
    norm_num [pyDictMax]

/-- Auxiliary: the per-instance routine bumps the global instance counter
by exactly one when it succeeds. -/
theorem partial_fit_one_instances_seen {ops : ManagerOps C D X R}
    {st st' : AdaptiveRandomForest C D R} {x : X} {y : Int} {w : Rat}
    (h : AdaptiveRandomForest.partial_fit_one ops st x y w = .ok st') :
    st'.instances_seen = st.instances_seen + 1 := by
  unfold AdaptiveRandomForest.partial_fit_one at h
  rcases hens : (AdaptiveRandomForest.preFitState ops st x).ensemble
    with _ | ls
  · rw [hens] at h
    exact Except.noConfusion h
  · rw [hens] at h
    dsimp only at h
    rcases hfold : ls.foldl (AdaptiveRandomForest.fitLearner ops
        st.lambda_value x y w (st.instances_seen + 1))
        (.ok ([], st.random_state)) with e | s
    · rw [hfold] at h
      exact Except.noConfusion h
    · obtain ⟨ls', r⟩ := s
      rw [hfold] at h
      dsimp only at h
      injection h with h
      subst h
      show (AdaptiveRandomForest.preFitState ops st x).instances_seen
        = st.instances_seen + 1
      unfold AdaptiveRandomForest.preFitState
      by_cases hsome : st.ensemble.isSome
        <;> simp [hsome, AdaptiveRandomForest.init_ensemble]

/-- Auxiliary: a zero-weight row is the identity on the manager state. -/
theorem fitRow_zero {ops : ManagerOps C D X R}
    {st : AdaptiveRandomForest C D R} {row : (X × Int) × Rat}
    (h : row.2 = 0) : AdaptiveRandomForest.fitRow ops st row = .ok st := by
  unfold AdaptiveRandomForest.fitRow
  rw [if_neg (by simp [h])]

/-- Auxiliary: the row loop equals the row loop over only the
non-zero-weight rows. -/
theorem foldRows_filter (ops : ManagerOps C D X R) :
    ∀ (rows : List ((X × Int) × Rat)) (st : AdaptiveRandomForest C D R),
      rows.foldlM (AdaptiveRandomForest.fitRow ops) st
        = (rows.filter (fun r => r.2 ≠ 0)).foldlM
            (AdaptiveRandomForest.fitRow ops) st := by
  intro rows
  induction rows with
  | nil => intro st; rfl
  | cons row rest ih =>
    intro st
    rw [List.filter_cons]
    by_cases h : row.2 ≠ 0
    · rw [if_pos (by simpa using h)]
      rw [List.foldlM_cons, List.foldlM_cons]
      rcases hres : AdaptiveRandomForest.fitRow ops st row with e | st1
      · rfl
      · exact ih st1
    · have hz : row.2 = 0 := by simpa using h
      rw [if_neg (by simpa using h), List.foldlM_cons, fitRow_zero hz]
      exact ih st

/-- Auxiliary: the row loop advances the instance counter by the number
of rows it actually trains on. -/
theorem foldRows_instances_seen (ops : ManagerOps C D X R) :
    ∀ (rows : List ((X × Int) × Rat))
      (st st' : AdaptiveRandomForest C D R),
      rows.foldlM (AdaptiveRandomForest.fitRow ops) st = .ok st' →
      st'.instances_seen = st.instances_seen
        + (rows.filter (fun r => r.2 ≠ 0)).length := by
  intro rows
  induction rows with
  | nil =>
    intro st st' h
    have h' : (Except.ok st : Except Unit (AdaptiveRandomForest C D R))
        = .ok st' := h
    injection h' with h'
    subst h'
    simp
  | cons row rest ih =>
    intro st st' h
    rw [List.foldlM_cons] at h
    by_cases hz : row.2 = 0
    · rw [fitRow_zero hz] at h
      have h2 : rest.foldlM (AdaptiveRandomForest.fitRow ops) st
          = .ok st' := h
      rw [ih st st' h2]
      simp [List.filter_cons, hz]
    · rcases hr : AdaptiveRandomForest.fitRow ops st row with e | st1
      · rw [hr] at h
        have h' : (Except.error e
            : Except Unit (AdaptiveRandomForest C D R)) = .ok st' := h
        exact Except.noConfusion h'
      · rw [hr] at h
        have h2 : rest.foldlM (AdaptiveRandomForest.fitRow ops) st1
            = .ok st' := h
        have h1 : st1.instances_seen = st.instances_seen + 1 := by
          unfold AdaptiveRandomForest.fitRow at hr
          rw [if_pos hz] at hr
          have h1' := partial_fit_one_instances_seen hr
          exact h1'
        rw [ih st1 st' h2, h1]
        simp only [List.filter_cons, List.length_cons]
        rw [if_pos (show decide (row.2 ≠ 0) = true by simpa using hz)]
        simp only [List.length_cons]
        omega

/-- C8: in the Ensemble Manager's batch partial_fit with per-row weights,
a zero-weight row is skipped with no state change — the whole batch
equals the batch over only the non-zero rows — and every non-zero-weight
row increments the global instance counter by exactly one on its way
through the per-instance routine. -/
theorem C8_zero_weight_rows_skipped (ops : ManagerOps C D X R)
    (st : AdaptiveRandomForest C D R) (xs : List X) (ys : List Int)
    (ws : List Rat) (hlen : xs.length = ws.length) :
    (∀ row : (X × Int) × Rat, row.2 = 0 →
      AdaptiveRandomForest.fitRow ops st row = .ok st)
    ∧ AdaptiveRandomForest.partial_fit ops st xs (some ys) (some ws)
      = (((xs.zip ys).zip ws).filter (fun r => r.2 ≠ 0)).foldlM
          (AdaptiveRandomForest.fitRow ops) st
    ∧ (∀ st',
        AdaptiveRandomForest.partial_fit ops st xs (some ys) (some ws)
          = .ok st' →
        st'.instances_seen = st.instances_seen
          + (((xs.zip ys).zip ws).filter (fun r => r.2 ≠ 0)).length) := by
  have hunfold : AdaptiveRandomForest.partial_fit ops st xs (some ys)
      (some ws) = ((xs.zip ys).zip ws).foldlM
        (AdaptiveRandomForest.fitRow ops) st := by
    unfold AdaptiveRandomForest.partial_fit
    simp only [Option.getD_some]
    rw [if_neg (by simp [hlen])]
  refine ⟨fun row h => fitRow_zero h, ?_, ?_⟩
  · exact hunfold.trans (foldRows_filter ops _ st)
  · intro st' h
    rw [hunfold] at h
    exact foldRows_instances_seen ops _ st st' h

/-- C8 witness: two unit rows with weights 0 and 1. -/
theorem C8_zero_weight_rows_skipped_witness :
    (∀ row : (Unit × Int) × Rat, row.2 = 0 →
      AdaptiveRandomForest.fitRow unitMOps
        (AdaptiveRandomForest.init 1 .strAuto false 6 (.detector ())
          (.detector ()) ()) row
        = .ok (AdaptiveRandomForest.init 1 .strAuto false 6 (.detector ())
          (.detector ()) ()))
    ∧ AdaptiveRandomForest.partial_fit unitMOps
        (AdaptiveRandomForest.init 1 .strAuto false 6 (.detector ())
          (.detector ()) ()) [(), ()] (some [0, 0]) (some [0, 1])
      = ((([(), ()].zip [(0 : Int), 0]).zip [(0 : Rat), 1]).filter
          (fun r => r.2 ≠ 0)).foldlM
          (AdaptiveRandomForest.fitRow unitMOps)
          (AdaptiveRandomForest.init 1 .strAuto false 6 (.detector ())
            (.detector ()) ())
    ∧ (∀ st',
        AdaptiveRandomForest.partial_fit unitMOps
          (AdaptiveRandomForest.init 1 .strAuto false 6 (.detector ())
            (.detector ()) ()) [(), ()] (some [0, 0]) (some [0, 1])
          = .ok st' →
        st'.instances_seen
          = (AdaptiveRandomForest.init 1 .strAuto false 6 (.detector ())
              (.detector ()) ()
              : AdaptiveRandomForest Unit Unit Unit).instances_seen
            + ((([(), ()].zip [(0 : Int), 0]).zip [(0 : Rat), 1]).filter
                (fun r => r.2 ≠ 0)).length) :=
  C8_zero_weight_rows_skipped unitMOps
    (AdaptiveRandomForest.init 1 .strAuto false 6 (.detector ())
      (.detector ()) ()) [(), ()] [0, 0] [0, 1] rfl
